import Mathlib

/-!
Shallow embedding of the FoodieRank rating-aggregation and ranking subsystem
(models `Restaurant` and `Review` from the source, plus the reviews router's
delete handler). Document-database collections are modelled as Lean lists,
MongoDB `ObjectId`s as natural numbers, JS numbers as exact rationals, and
`Date` timestamps as natural numbers supplied by the caller. `findOne`
corresponds to `List.find?` (first match), `updateOne`/`findOneAndUpdate` to
an update of the first matching element, `deleteOne` to `List.eraseP`,
`deleteMany` to `List.filter` with the negated predicate, and `insertOne` to
appending. Thrown JS errors become an `Except` error value; the distinct
throw sites of the source keep distinct constructors.
-/

namespace FoodieRank

/-- The two reaction kinds accepted by the reaction endpoints. -/
inductive ReactionType where
  | like
  | dislike
deriving DecidableEq

/-- A document of the `reviewReactions` collection: inserted with a
`createdAt` stamp only; `updatedAt` is set when the type is flipped. -/
structure Reaction where
  reviewId : Nat
  userId : Nat
  rtype : ReactionType
  createdAt : Nat
  updatedAt : Option Nat
deriving DecidableEq

/-- A document of the `reviews` collection (the `Review` model's fields). -/
structure Review where
  revId : Nat
  userId : Nat
  restaurantId : Nat
  rating : ℚ
  comment : String
  likes : Int
  dislikes : Int
  createdAt : Nat
  updatedAt : Nat
deriving DecidableEq

/-- A document of the `restaurants` collection, restricted to the fields the
rating/ranking subsystem reads or writes. -/
structure Restaurant where
  rid : Nat
  name : String
  category : String
  approved : Bool
  rating : ℚ
  reviewCount : Nat
  createdAt : Nat
  updatedAt : Nat
deriving DecidableEq

/-- The database state seen by the subsystem: the three collections. -/
structure DB where
  restaurants : List Restaurant
  reviews : List Review
  reactions : List Reaction
deriving DecidableEq

/-- Distinct error constructors for the distinct `throw new Error(...)` sites
of the source (`DuplicateReviewError`, `RestaurantNotApprovedError`,
`RestaurantNotFoundError`, the shared not-found-or-not-owner message of
`updateById`/`deleteById`, `ReviewNotFoundError`, `SelfReactionError`). -/
inductive Err where
  | duplicateReview
  | restaurantNotApproved
  | restaurantNotFound
  | reviewNotFoundOrNotOwner
  | reviewNotFound
  | selfReaction
deriving DecidableEq

instance {ε α : Type} [DecidableEq ε] [DecidableEq α] : DecidableEq (Except ε α)
  | .error e, .error f =>
    if h : e = f then .isTrue (by rw [h]) else .isFalse (by simp [h])
  | .error _, .ok _ => .isFalse (by simp)
  | .ok _, .error _ => .isFalse (by simp)
  | .ok a, .ok b =>
    if h : a = b then .isTrue (by rw [h]) else .isFalse (by simp [h])

/-- MongoDB `updateOne` / `findOneAndUpdate`: rewrite the first element
satisfying `p` with `f`, leaving everything else in place. -/
def updateFirst (p : α → Bool) (f : α → α) : List α → List α
  | [] => []
  | a :: as => if p a then f a :: as else a :: updateFirst p f as

/-- JavaScript `Math.round`: round half toward positive infinity
(expressed with the executable `Rat.floor`; see `jsRound_eq_floor`). -/
def jsRound (q : ℚ) : ℤ := (q + 1 / 2).floor

/-- `Restaurant.updateRating(id)`: aggregate the reviews matching
`restaurantId`, compute `rating = Math.round(avg * 10) / 10` (0 when no
review matches) and `reviewCount`, persist both with a refreshed
`updatedAt`, and return `{rating, reviewCount}`. -/
def updateRating (db : DB) (id : Nat) (now : Nat) : DB × ℚ × Nat :=
  let matched := db.reviews.filter (fun rv => rv.restaurantId == id)
  let count := matched.length
  let rating : ℚ :=
    if 0 < count then (jsRound ((matched.map Review.rating).sum / count * 10) : ℚ) / 10 else 0
  let restaurants' := updateFirst (fun r => r.rid == id)
    (fun r => { r with rating := rating, reviewCount := count, updatedAt := now })
    db.restaurants
  ({ db with restaurants := restaurants' }, rating, count)

/-- The input fields read by the `Review` constructor (`reviewData`). -/
structure ReviewData where
  userId : Nat
  restaurantId : Nat
  rating : ℚ
  comment : String
  createdAt : Option Nat := none
  updatedAt : Option Nat := none

/-- The `Review` constructor: `likes` and `dislikes` start at 0, timestamps
default to the current date. -/
def reviewOfData (d : ReviewData) (newId : Nat) (now : Nat) : Review :=
  { revId := newId
    userId := d.userId
    restaurantId := d.restaurantId
    rating := d.rating
    comment := d.comment
    likes := 0
    dislikes := 0
    createdAt := d.createdAt.getD now
    updatedAt := d.updatedAt.getD now }

/-- `Review.create(reviewData)`: reject a duplicate `(userId, restaurantId)`
review, then look the restaurant up with `approved: true`, distinguishing
not-approved from not-found on failure; on success insert the review and
synchronously recompute the restaurant's aggregate. -/
def Review.create (db : DB) (d : ReviewData) (newId : Nat) (now : Nat) :
    Except Err (DB × Review) :=
  match db.reviews.find? (fun rv => rv.userId == d.userId && rv.restaurantId == d.restaurantId) with
  | some _ => .error .duplicateReview
  | none =>
    match db.restaurants.find? (fun r => r.rid == d.restaurantId && r.approved) with
    | some _ =>
      let review := reviewOfData d newId now
      let db1 := { db with reviews := db.reviews ++ [review] }
      let db2 := (updateRating db1 d.restaurantId now).1
      .ok (db2, review)
    | none =>
      match db.restaurants.find? (fun r => r.rid == d.restaurantId) with
      | some _ => .error .restaurantNotApproved
      | none => .error .restaurantNotFound

/-- The update payload reaching `Review.updateById` (`req.body` forwarded as
`updateData`). The router applies no field whitelist, so besides `rating`
and `comment` the payload can also carry `userId`/`restaurantId` keys; a
field set to `none` is absent from the payload. -/
structure Patch where
  rating? : Option ℚ := none
  comment? : Option String := none
  userId? : Option Nat := none
  restaurantId? : Option Nat := none

/-- The `$set: updateData` write of `findOneAndUpdate`: overwrite exactly the
fields present in the payload, plus the freshly stamped `updatedAt`. -/
def applySet (patch : Patch) (now : Nat) (rv : Review) : Review :=
  { rv with
    rating := patch.rating?.getD rv.rating
    comment := patch.comment?.getD rv.comment
    userId := patch.userId?.getD rv.userId
    restaurantId := patch.restaurantId?.getD rv.restaurantId
    updatedAt := now }

/-- JavaScript truthiness of the optional numeric field read by
`if (updateData.rating)`: present and nonzero. -/
def truthyNum : Option ℚ → Bool
  | some q => !(q == 0)
  | none => false

/-- `Review.updateById(id, updateData, userId)`: require a review matching
both `_id` and `userId`, `$set` the payload on the first `_id` match, then
recompute the restaurant aggregate only when `updateData.rating` is truthy
(target taken from the review found by the ownership query). -/
def Review.updateById (db : DB) (id : Nat) (patch : Patch) (userId : Nat) (now : Nat) :
    Except Err (DB × Review) :=
  match db.reviews.find? (fun rv => rv.revId == id && rv.userId == userId) with
  | none => .error .reviewNotFoundOrNotOwner
  | some existingReview =>
    let reviews1 := updateFirst (fun rv => rv.revId == id) (applySet patch now) db.reviews
    match reviews1.find? (fun rv => rv.revId == id) with
    | none => .error .reviewNotFoundOrNotOwner
    | some updated =>
      let db1 := { db with reviews := reviews1 }
      let db2 := if truthyNum patch.rating? then (updateRating db1 existingReview.restaurantId now).1 else db1
      .ok (db2, updated)

/-- `Review.deleteById(id, userId)`: require a review matching both `_id`
and `userId`, delete all reactions referencing the review (`deleteMany`),
delete the review (`deleteOne` on `_id`), then recompute the restaurant
aggregate of the found review. -/
def Review.deleteById (db : DB) (id : Nat) (userId : Nat) (now : Nat) :
    Except Err (DB × Bool) :=
  match db.reviews.find? (fun rv => rv.revId == id && rv.userId == userId) with
  | none => .error .reviewNotFoundOrNotOwner
  | some review =>
    let db1 := { db with reactions := db.reactions.filter (fun rc => !(rc.reviewId == id)) }
    let deleted := db1.reviews.any (fun rv => rv.revId == id)
    let db2 := { db1 with reviews := db1.reviews.eraseP (fun rv => rv.revId == id) }
    let db3 := (updateRating db2 review.restaurantId now).1
    .ok (db3, deleted)

/-- `Review.getUserReaction(reviewId, userId)`. -/
def getUserReaction (db : DB) (reviewId : Nat) (userId : Nat) : Option Reaction :=
  db.reactions.find? (fun rc => rc.reviewId == reviewId && rc.userId == userId)

/-- `Review.addReaction(reviewId, userId, reactionType)`: reject a missing
review or a self-reaction, then run the three-branch toggle (delete the
reaction and decrement on a repeat of the same type; flip the stored type
and move one count across on a different type; insert a reaction and
increment on no prior reaction), and `$inc` the cached counters on the
review, returning the updated review. -/
def Review.addReaction (db : DB) (reviewId : Nat) (userId : Nat) (rtype : ReactionType)
    (now : Nat) : Except Err (DB × Review) :=
  match db.reviews.find? (fun rv => rv.revId == reviewId) with
  | none => .error .reviewNotFound
  | some review =>
    if review.userId == userId then .error .selfReaction
    else
      let pairMatch := fun (rc : Reaction) => rc.reviewId == reviewId && rc.userId == userId
      let step : List Reaction × Int × Int :=
        match db.reactions.find? pairMatch with
        | some existingReaction =>
          if existingReaction.rtype == rtype then
            (db.reactions.eraseP pairMatch,
             if rtype == .like then -1 else 0,
             if rtype == .like then 0 else -1)
          else
            (updateFirst pairMatch (fun rc => { rc with rtype := rtype, updatedAt := some now })
               db.reactions,
             if rtype == .like then 1 else -1,
             if rtype == .like then -1 else 1)
        | none =>
          (db.reactions ++
             [{ reviewId := reviewId, userId := userId, rtype := rtype,
                createdAt := now, updatedAt := none }],
           if rtype == .like then 1 else 0,
           if rtype == .like then 0 else 1)
      let reviews1 := updateFirst (fun rv => rv.revId == reviewId)
        (fun rv => { rv with likes := rv.likes + step.2.1, dislikes := rv.dislikes + step.2.2 })
        db.reviews
      match reviews1.find? (fun rv => rv.revId == reviewId) with
      | none => .error .reviewNotFound
      | some updated => .ok ({ db with reviews := reviews1, reactions := step.1 }, updated)

/-- The `DELETE /api/v1/reviews/:id` handler of `src/routers/reviews.js`:
404 when `Review.findById` misses, 403 when the requester is neither the
author nor an admin, otherwise `Review.deleteById(id, req.user.id)`; an
error thrown there reaches the generic error handler, which answers 500 for
a plain `Error` without a status. `req.user.id` is modelled as the
authenticated requester's id. Returns the HTTP status and the database
state after the request. -/
def routerDeleteReview (db : DB) (id : Nat) (requesterId : Nat) (isAdmin : Bool) (now : Nat) :
    Nat × DB :=
  match db.reviews.find? (fun rv => rv.revId == id) with
  | none => (404, db)
  | some review =>
    if !(review.userId == requesterId) && !isAdmin then (403, db)
    else
      match Review.deleteById db id requesterId now with
      | .ok (db', _) => (200, db')
      | .error _ => (500, db)

/-- The input fields of the `Restaurant` constructor that the aggregation
subsystem cares about; `rating`/`reviewCount` can be supplied by the caller
but the constructor ignores them. -/
structure RestaurantData where
  name : String := ""
  category : Option String := none
  approved : Option Bool := none
  rating : Option ℚ := none
  reviewCount : Option Nat := none
  createdAt : Option Nat := none
  updatedAt : Option Nat := none

/-- The `Restaurant` constructor: `category` defaults to the empty string,
`approved` defaults to `true` when absent, and `rating`/`reviewCount` are
unconditionally set to 0 whatever the input carries. -/
def restaurantOfData (d : RestaurantData) (newId : Nat) (now : Nat) : Restaurant :=
  { rid := newId
    name := d.name
    category := d.category.getD ""
    approved := d.approved.getD true
    rating := 0
    reviewCount := 0
    createdAt := d.createdAt.getD now
    updatedAt := d.updatedAt.getD now }

/-- `Restaurant.create(restaurantData)`: run the constructor, insert the
document, and return it with its new id. -/
def Restaurant.create (db : DB) (d : RestaurantData) (newId : Nat) (now : Nat) :
    DB × Restaurant :=
  let restaurant := restaurantOfData d newId now
  ({ db with restaurants := db.restaurants ++ [restaurant] }, restaurant)

/-- The `$addFields` weighted score of `Restaurant.getRanking`:
`rating * 0.7 + min(reviewCount / 10, 1) * 0.3` when `reviewCount > 0`,
else 0. -/
def weightedScore (r : Restaurant) : ℚ :=
  if 0 < r.reviewCount then
    r.rating * (7 / 10) + min ((r.reviewCount : ℚ) / 10) 1 * (3 / 10)
  else 0

/-- The ranking sort key: descending lexicographic order on
`(weightedScore, reviewCount, rating)` as in
`$sort: { weightedScore: -1, reviewCount: -1, rating: -1 }`. -/
def rankKey (r : Restaurant) : Lex (ℚ × Lex (ℚ × ℚ)) :=
  toLex (weightedScore r, toLex ((r.reviewCount : ℚ), r.rating))

/-- Comparison used to sort the ranking: `a` may precede `b` exactly when
`a`'s key is at least `b`'s in the lexicographic triple order. -/
def rankRel (a b : Restaurant) : Prop := rankKey b ≤ rankKey a

instance : DecidableRel rankRel := fun a b =>
  inferInstanceAs (Decidable (rankKey b ≤ rankKey a))

instance : IsTotal Restaurant rankRel where
  total a b := le_total (rankKey b) (rankKey a)

instance : IsTrans Restaurant rankRel where
  trans _ _ _ h h' := le_trans h' h

/-- The `$match` stage of `Restaurant.getRanking`: approved restaurants,
optionally restricted to one category. -/
def rankCandidates (db : DB) (category : Option String) : List Restaurant :=
  db.restaurants.filter fun r =>
    r.approved && (match category with | some c => r.category == c | none => true)

/-- `Restaurant.getRanking(options)`: match approved (and category-matching)
restaurants, order them by descending `(weightedScore, reviewCount,
rating)`, and truncate to `limit`. -/
def getRanking (db : DB) (category : Option String) (limit : Nat) : List Restaurant :=
  ((rankCandidates db category).insertionSort rankRel).take limit

/-! ## Derived aggregate values and consistency predicates -/

/-- The persisted reviews referencing restaurant `id`. -/
def reviewsFor (db : DB) (id : Nat) : List Review :=
  db.reviews.filter (fun rv => rv.restaurantId == id)

/-- Number of persisted reviews referencing restaurant `id`. -/
def derivedCount (db : DB) (id : Nat) : Nat := (reviewsFor db id).length

/-- The aggregate rating the Review Ledger induces for restaurant `id`:
0 with no reviews, otherwise the mean of the review ratings rounded to one
decimal place with `Math.round`. -/
def derivedRating (db : DB) (id : Nat) : ℚ :=
  if 0 < derivedCount db id then
    (jsRound (((reviewsFor db id).map Review.rating).sum / derivedCount db id * 10) : ℚ) / 10
  else 0

/-- A restaurant's stored aggregate fields agree with the Review Ledger. -/
def aggConsistent (db : DB) (r : Restaurant) : Prop :=
  r.reviewCount = derivedCount db r.rid ∧ r.rating = derivedRating db r.rid

/-- Every stored restaurant carries aggregates consistent with the current
Review Ledger. -/
def dbConsistent (db : DB) : Prop := ∀ r ∈ db.restaurants, aggConsistent db r

instance (db : DB) (r : Restaurant) : Decidable (aggConsistent db r) := by
  unfold aggConsistent
  infer_instance

instance (db : DB) : Decidable (dbConsistent db) := by
  unfold dbConsistent
  exact List.decidableBAll _ _

/-- Number of reactions of kind `t` referencing the review `id`. -/
def reactionCount (db : DB) (id : Nat) (t : ReactionType) : Nat :=
  (db.reactions.filter (fun rc => rc.reviewId == id && rc.rtype == t)).length

/-- Every review's cached `likes`/`dislikes` counters agree with the actual
reaction set. -/
def reactConsistent (db : DB) : Prop :=
  ∀ rv ∈ db.reviews, rv.likes = (reactionCount db rv.revId .like : Int) ∧
    rv.dislikes = (reactionCount db rv.revId .dislike : Int)

/-- At most one reaction per `(reviewId, userId)` pair. -/
def reactionsUnique (db : DB) : Prop :=
  db.reactions.Pairwise (fun a b => ¬(a.reviewId = b.reviewId ∧ a.userId = b.userId))

/-! ## Helper lemmas -/

theorem jsRound_eq_floor (q : ℚ) : jsRound q = ⌊q + 1 / 2⌋ := by
  rw [jsRound, Rat.floor_def', ← Rat.floor_def]

theorem find?_decomp {p : α → Bool} {l : List α} {a : α} (h : l.find? p = some a) :
    ∃ l₁ l₂, l = l₁ ++ a :: l₂ ∧ (∀ b ∈ l₁, ¬ p b) ∧ p a := by
  induction l with
  | nil => simp at h
  | cons x xs ih =>
    by_cases hx : p x
    · rw [List.find?_cons_of_pos _ hx] at h
      injection h with h'
      subst h'
      exact ⟨[], xs, rfl, by simp, hx⟩
    · rw [List.find?_cons_of_neg _ hx] at h
      obtain ⟨l₁, l₂, hl, hnot, hp⟩ := ih h
      exact ⟨x :: l₁, l₂, by simp [hl], by simpa [hx] using hnot, hp⟩

theorem updateFirst_cons_pos {p : α → Bool} {f : α → α} {a : α} {l : List α} (h : p a) :
    updateFirst p f (a :: l) = f a :: l := by simp [updateFirst, h]

theorem updateFirst_cons_neg {p : α → Bool} {f : α → α} {a : α} {l : List α} (h : ¬ p a) :
    updateFirst p f (a :: l) = a :: updateFirst p f l := by simp [updateFirst, h]

theorem updateFirst_of_forall_not {p : α → Bool} {f : α → α} {l : List α}
    (h : ∀ b ∈ l, ¬ p b) : updateFirst p f l = l := by
  induction l with
  | nil => rfl
  | cons x xs ih =>
    rw [updateFirst_cons_neg (h x (by simp))]
    rw [ih fun b hb => h b (by simp [hb])]

theorem updateFirst_append_of_forall_not {p : α → Bool} {f : α → α} {l₁ : List α}
    (h : ∀ b ∈ l₁, ¬ p b) (l₂ : List α) :
    updateFirst p f (l₁ ++ l₂) = l₁ ++ updateFirst p f l₂ := by
  induction l₁ with
  | nil => rfl
  | cons x xs ih =>
    rw [List.cons_append, updateFirst_cons_neg (h x (by simp)), List.cons_append]
    rw [ih fun b hb => h b (by simp [hb])]

theorem length_updateFirst {p : α → Bool} {f : α → α} (l : List α) :
    (updateFirst p f l).length = l.length := by
  induction l with
  | nil => rfl
  | cons x xs ih => by_cases hx : p x <;> simp [updateFirst, hx, ih]

theorem map_updateFirst {p : α → Bool} {f : α → α} (g : α → β)
    (hg : ∀ a, g (f a) = g a) (l : List α) :
    (updateFirst p f l).map g = l.map g := by
  induction l with
  | nil => rfl
  | cons x xs ih => by_cases hx : p x <;> simp [updateFirst, hx, ih, hg]

theorem updateFirst_updateFirst {p : α → Bool} {f g : α → α}
    (hp : ∀ a, p a → p (g a)) (l : List α) :
    updateFirst p f (updateFirst p g l) = updateFirst p (fun a => f (g a)) l := by
  induction l with
  | nil => rfl
  | cons x xs ih =>
    by_cases hx : p x
    · rw [updateFirst_cons_pos hx, updateFirst_cons_pos (hp x hx), updateFirst_cons_pos hx]
    · rw [updateFirst_cons_neg hx, updateFirst_cons_neg hx, updateFirst_cons_neg hx, ih]

theorem updateFirst_congr {p : α → Bool} {f g : α → α}
    (h : ∀ a, p a → f a = g a) (l : List α) :
    updateFirst p f l = updateFirst p g l := by
  induction l with
  | nil => rfl
  | cons x xs ih =>
    by_cases hx : p x
    · rw [updateFirst_cons_pos hx, updateFirst_cons_pos hx, h x hx]
    · rw [updateFirst_cons_neg hx, updateFirst_cons_neg hx, ih]

theorem updateFirst_id {p : α → Bool} (l : List α) :
    updateFirst p (fun a => a) l = l := by
  induction l with
  | nil => rfl
  | cons x xs ih => by_cases hx : p x <;> simp [updateFirst, hx, ih]

theorem find?_updateFirst {p : α → Bool} {f : α → α}
    (hp : ∀ a, p a → p (f a)) (l : List α) :
    (updateFirst p f l).find? p = (l.find? p).map f := by
  induction l with
  | nil => rfl
  | cons x xs ih =>
    by_cases hx : p x
    · rw [updateFirst_cons_pos hx, List.find?_cons_of_pos _ (hp x hx),
        List.find?_cons_of_pos _ hx]
      simp
    · rw [updateFirst_cons_neg hx, List.find?_cons_of_neg _ hx, List.find?_cons_of_neg _ hx, ih]

/-- Under a `Nodup` key column, the first-match update behaves like a
pointwise map over the whole collection. -/
theorem updateFirst_eq_map_of_nodup (key : α → Nat) (k : Nat) (f : α → α) {l : List α}
    (hN : (l.map key).Nodup) :
    updateFirst (fun a => key a == k) f l
      = l.map (fun a => if key a == k then f a else a) := by
  induction l with
  | nil => rfl
  | cons x xs ih =>
    simp only [List.map_cons, List.nodup_cons] at hN
    by_cases hx : key x == k
    · rw [updateFirst_cons_pos (p := fun a => key a == k) hx, List.map_cons, if_pos hx]
      have : ∀ b ∈ xs, ¬(key b == k) := by
        intro b hb hbk
        have hb' : key b = k := by simpa using hbk
        have hx' : key x = k := by simpa using hx
        exact hN.1 (by rw [List.mem_map]; exact ⟨b, hb, by rw [hb', hx']⟩)
      rw [List.map_congr_left fun b hb => if_neg (this b hb), List.map_id']
    · rw [updateFirst_cons_neg (p := fun a => key a == k) (by simpa using hx),
        List.map_cons, if_neg hx, ih hN.2]

/-- The field write performed by `updateRating`'s `$set`. -/
def setAgg (q : ℚ) (n : Nat) (now : Nat) (r : Restaurant) : Restaurant :=
  { r with rating := q, reviewCount := n, updatedAt := now }

/-- `updateRating` phrased through the derived aggregate values. -/
theorem updateRating_def (db : DB) (id now : Nat) :
    updateRating db id now =
      ({ db with restaurants := (updateFirst (fun r => r.rid == id)
          (setAgg (derivedRating db id) (derivedCount db id) now) db.restaurants) },
       derivedRating db id, derivedCount db id) := rfl

theorem updateRating_reviews (db : DB) (id now : Nat) :
    ((updateRating db id now).1).reviews = db.reviews := rfl

theorem updateRating_reactions (db : DB) (id now : Nat) :
    ((updateRating db id now).1).reactions = db.reactions := rfl

/-! ## Claims -/

/-- C10: whatever the creation input carries — including explicit `rating`
or `reviewCount` values — the created restaurant record has `rating = 0`
and `reviewCount = 0`, it is the one appended to the collection, and when
no persisted review references its id it starts consistent with its empty
review ledger. -/
theorem C10_new_restaurant_zero_aggregates (db : DB) (d : RestaurantData) (newId now : Nat) :
    (Restaurant.create db d newId now).2.rating = 0 ∧
    (Restaurant.create db d newId now).2.reviewCount = 0 ∧
    (Restaurant.create db d newId now).1.restaurants
      = db.restaurants ++ [(Restaurant.create db d newId now).2] ∧
    ((∀ rv ∈ db.reviews, rv.restaurantId ≠ newId) →
      aggConsistent (Restaurant.create db d newId now).1 (Restaurant.create db d newId now).2) := by
  refine ⟨rfl, rfl, rfl, fun hfresh => ?_⟩
  have hempty : reviewsFor (Restaurant.create db d newId now).1 newId = [] := by
    simp only [reviewsFor, Restaurant.create, restaurantOfData, List.filter_eq_nil_iff]
    intro rv hrv
    simpa using hfresh rv hrv
  have hrid : (Restaurant.create db d newId now).2.rid = newId := rfl
  constructor
  · show (0 : Nat) = derivedCount (Restaurant.create db d newId now).1
      (Restaurant.create db d newId now).2.rid
    rw [hrid, derivedCount, hempty]
    rfl
  · show (0 : ℚ) = derivedRating (Restaurant.create db d newId now).1
      (Restaurant.create db d newId now).2.rid
    rw [hrid, derivedRating, derivedCount, hempty]
    rfl

/-- C10 witness: a creation input that explicitly supplies nonzero
`rating` and `reviewCount` still yields a record with both at 0. -/
theorem C10_new_restaurant_zero_aggregates_witness :
    (Restaurant.create ⟨[], [], []⟩
        { name := "X", rating := some 5, reviewCount := some 7 } 1 2).2.rating = 0 ∧
    (Restaurant.create ⟨[], [], []⟩
        { name := "X", rating := some 5, reviewCount := some 7 } 1 2).2.reviewCount = 0 ∧
    aggConsistent (Restaurant.create ⟨[], [], []⟩
        { name := "X", rating := some 5, reviewCount := some 7 } 1 2).1
      (Restaurant.create ⟨[], [], []⟩
        { name := "X", rating := some 5, reviewCount := some 7 } 1 2).2 := by
  obtain ⟨h1, h2, _, h4⟩ := C10_new_restaurant_zero_aggregates ⟨[], [], []⟩
    { name := "X", rating := some 5, reviewCount := some 7 } 1 2
  exact ⟨h1, h2, h4 (by simp)⟩

/-- C9: recomputing a restaurant's aggregate twice in a row with no
intervening review change returns the same `{rating, reviewCount}` pair
both times, and (with identical timestamps) the second recompute does not
change the database at all. -/
theorem C9_recompute_idempotent (db : DB) (id now now' : Nat) :
    (updateRating ((updateRating db id now).1) id now').2 = (updateRating db id now).2 ∧
    (updateRating ((updateRating db id now).1) id now).1 = (updateRating db id now).1 := by
  constructor
  · rfl
  · have key : updateFirst (fun r => r.rid == id)
        (setAgg (derivedRating db id) (derivedCount db id) now)
        (updateFirst (fun r => r.rid == id)
          (setAgg (derivedRating db id) (derivedCount db id) now) db.restaurants)
      = updateFirst (fun r => r.rid == id)
        (setAgg (derivedRating db id) (derivedCount db id) now) db.restaurants := by
      rw [updateFirst_updateFirst (p := fun r => r.rid == id)
        (g := setAgg (derivedRating db id) (derivedCount db id) now) (fun a ha => ha)]
      exact updateFirst_congr (fun a _ => rfl) _
    exact congrArg (fun l => ({ db with restaurants := l } : DB)) key

/-- C2: `updateRating` computes `reviewCount` as the number of reviews whose
`restaurantId` equals `id`, computes `rating` as 0 when that count is 0 and
otherwise as the mean of those reviews' ratings rounded to one decimal
place with round-half-up (`⌊x + 1/2⌋`), persists both fields together with
a refreshed `updatedAt` onto the matching restaurant record (and touches
nothing else), and returns the `{rating, reviewCount}` pair. -/
theorem C2_recompute_functional (db : DB) (id now : Nat)
    (hN : (db.restaurants.map Restaurant.rid).Nodup) :
    (updateRating db id now).2.2 = (db.reviews.filter (fun rv => rv.restaurantId == id)).length ∧
    ((updateRating db id now).2.2 = 0 → (updateRating db id now).2.1 = 0) ∧
    (0 < (updateRating db id now).2.2 →
      (updateRating db id now).2.1 =
        (⌊((db.reviews.filter (fun rv => rv.restaurantId == id)).map Review.rating).sum
            / ((db.reviews.filter (fun rv => rv.restaurantId == id)).length : ℚ) * 10
            + 1 / 2⌋ : ℚ) / 10) ∧
    ((updateRating db id now).1).restaurants
      = db.restaurants.map (fun r => if r.rid == id then
          setAgg (updateRating db id now).2.1 (updateRating db id now).2.2 now r else r) ∧
    ((updateRating db id now).1).reviews = db.reviews ∧
    ((updateRating db id now).1).reactions = db.reactions := by
  refine ⟨rfl, ?_, ?_, ?_, rfl, rfl⟩
  · intro h
    have h' : derivedCount db id = 0 := h
    show derivedRating db id = 0
    rw [derivedRating, h']
    rfl
  · intro h
    have h' : 0 < derivedCount db id := h
    show derivedRating db id = _
    rw [derivedRating, if_pos h', jsRound_eq_floor]
    rfl
  · exact updateFirst_eq_map_of_nodup Restaurant.rid id _ hN

/-- C2 witness: a restaurant with two reviews rated 4 and 5 recomputes to
`reviewCount = 2` with everything else untouched. -/
theorem C2_recompute_functional_witness :
    (((DB.mk [⟨1, "A", "c", true, 0, 0, 0, 0⟩]
        [⟨1, 1, 1, 4, "x", 0, 0, 0, 0⟩, ⟨2, 2, 1, 5, "y", 0, 0, 0, 0⟩] []).restaurants.map
          Restaurant.rid).Nodup) ∧
    (updateRating (DB.mk [⟨1, "A", "c", true, 0, 0, 0, 0⟩]
        [⟨1, 1, 1, 4, "x", 0, 0, 0, 0⟩, ⟨2, 2, 1, 5, "y", 0, 0, 0, 0⟩] []) 1 7).2.2
      = ((DB.mk [⟨1, "A", "c", true, 0, 0, 0, 0⟩]
        [⟨1, 1, 1, 4, "x", 0, 0, 0, 0⟩, ⟨2, 2, 1, 5, "y", 0, 0, 0, 0⟩] []).reviews.filter
          (fun rv => rv.restaurantId == 1)).length :=
  ⟨by decide, (C2_recompute_functional (DB.mk [⟨1, "A", "c", true, 0, 0, 0, 0⟩]
      [⟨1, 1, 1, 4, "x", 0, 0, 0, 0⟩, ⟨2, 2, 1, 5, "y", 0, 0, 0, 0⟩] []) 1 7 (by decide)).1⟩

/-- C6: review creation fails with the duplicate-review error when a review
for the `(userId, restaurantId)` pair already exists; otherwise it fails
with the not-approved error when a restaurant with that id exists but none
of them is approved, and with the not-found error when no restaurant with
that id exists — three pairwise distinct failure kinds. -/
theorem C6_create_error_taxonomy (db : DB) (d : ReviewData) (newId now : Nat) :
    ((∃ rv ∈ db.reviews, rv.userId = d.userId ∧ rv.restaurantId = d.restaurantId) →
      Review.create db d newId now = .error .duplicateReview) ∧
    ((¬∃ rv ∈ db.reviews, rv.userId = d.userId ∧ rv.restaurantId = d.restaurantId) →
      (∃ r ∈ db.restaurants, r.rid = d.restaurantId) →
      (¬∃ r ∈ db.restaurants, r.rid = d.restaurantId ∧ r.approved = true) →
      Review.create db d newId now = .error .restaurantNotApproved) ∧
    ((¬∃ rv ∈ db.reviews, rv.userId = d.userId ∧ rv.restaurantId = d.restaurantId) →
      (¬∃ r ∈ db.restaurants, r.rid = d.restaurantId) →
      Review.create db d newId now = .error .restaurantNotFound) ∧
    (Err.duplicateReview ≠ Err.restaurantNotApproved ∧
      Err.duplicateReview ≠ Err.restaurantNotFound ∧
      Err.restaurantNotApproved ≠ Err.restaurantNotFound) := by
  refine ⟨?_, ?_, ?_, by decide⟩
  · rintro ⟨rv, hrv, h1, h2⟩
    rcases hfind : db.reviews.find?
        (fun rv => rv.userId == d.userId && rv.restaurantId == d.restaurantId) with _ | x
    · exfalso
      rw [List.find?_eq_none] at hfind
      exact hfind rv hrv (by simp [h1, h2])
    · unfold Review.create
      rw [hfind]
  · intro hnodup hex hnoapp
    have hd : db.reviews.find?
        (fun rv => rv.userId == d.userId && rv.restaurantId == d.restaurantId) = none := by
      rw [List.find?_eq_none]
      intro x hx hpx
      exact hnodup ⟨x, hx, by simpa using hpx⟩
    have happ : db.restaurants.find?
        (fun r => r.rid == d.restaurantId && r.approved) = none := by
      rw [List.find?_eq_none]
      intro r hr hpr
      exact hnoapp ⟨r, hr, by simpa using hpr⟩
    obtain ⟨r, hr, hrid⟩ := hex
    rcases hfind : db.restaurants.find? (fun r => r.rid == d.restaurantId) with _ | x
    · exfalso
      rw [List.find?_eq_none] at hfind
      exact hfind r hr (by simp [hrid])
    · unfold Review.create
      rw [hd, happ, hfind]
  · intro hnodup hnone
    have hd : db.reviews.find?
        (fun rv => rv.userId == d.userId && rv.restaurantId == d.restaurantId) = none := by
      rw [List.find?_eq_none]
      intro x hx hpx
      exact hnodup ⟨x, hx, by simpa using hpx⟩
    have happ : db.restaurants.find?
        (fun r => r.rid == d.restaurantId && r.approved) = none := by
      rw [List.find?_eq_none]
      intro r hr hpr
      exact hnone ⟨r, hr, by simpa using (by simpa using hpr : _ ∧ _).1⟩
    have hall : db.restaurants.find? (fun r => r.rid == d.restaurantId) = none := by
      rw [List.find?_eq_none]
      intro r hr hpr
      exact hnone ⟨r, hr, by simpa using hpr⟩
    unfold Review.create
    rw [hd, happ, hall]

/-- C6 witness: against one approved restaurant (id 1, already reviewed by
user 1) and one unapproved restaurant (id 3), the three creation failures
are observed at concrete inputs. -/
theorem C6_create_error_taxonomy_witness :
    Review.create (DB.mk [⟨1, "A", "c", true, 0, 0, 0, 0⟩, ⟨3, "U", "c", false, 0, 0, 0, 0⟩]
        [⟨1, 1, 1, 4, "x", 0, 0, 0, 0⟩] []) ⟨1, 1, 3, "z", none, none⟩ 9 9
      = .error .duplicateReview ∧
    Review.create (DB.mk [⟨1, "A", "c", true, 0, 0, 0, 0⟩, ⟨3, "U", "c", false, 0, 0, 0, 0⟩]
        [⟨1, 1, 1, 4, "x", 0, 0, 0, 0⟩] []) ⟨3, 3, 3, "z", none, none⟩ 9 9
      = .error .restaurantNotApproved ∧
    Review.create (DB.mk [⟨1, "A", "c", true, 0, 0, 0, 0⟩, ⟨3, "U", "c", false, 0, 0, 0, 0⟩]
        [⟨1, 1, 1, 4, "x", 0, 0, 0, 0⟩] []) ⟨3, 4, 3, "z", none, none⟩ 9 9
      = .error .restaurantNotFound :=
  ⟨(C6_create_error_taxonomy _ _ 9 9).1 (by decide),
   (C6_create_error_taxonomy (DB.mk [⟨1, "A", "c", true, 0, 0, 0, 0⟩,
       ⟨3, "U", "c", false, 0, 0, 0, 0⟩] [⟨1, 1, 1, 4, "x", 0, 0, 0, 0⟩] [])
       ⟨3, 3, 3, "z", none, none⟩ 9 9).2.1 (by decide) (by decide) (by decide),
   (C6_create_error_taxonomy (DB.mk [⟨1, "A", "c", true, 0, 0, 0, 0⟩,
       ⟨3, "U", "c", false, 0, 0, 0, 0⟩] [⟨1, 1, 1, 4, "x", 0, 0, 0, 0⟩] [])
       ⟨3, 4, 3, "z", none, none⟩ 9 9).2.2.1 (by decide) (by decide)⟩

/-- C3: at a concrete state with one review authored by user 1 and one
reaction on it, an admin requester (id 2) who is not the author passes the
router's 403 check, yet the delete fails: `Review.deleteById` re-filters by
`{_id, userId: requester}`, throws its not-found-or-not-owner error, the
router answers 500, nothing is deleted, and the reaction cascade never
happens (`getUserReaction` still finds user 3's reaction). -/
theorem C3_admin_delete_fails :
    (routerDeleteReview (DB.mk [⟨1, "A", "c", true, 4, 1, 0, 0⟩]
        [⟨1, 1, 1, 4, "x", 0, 0, 0, 0⟩] [⟨1, 3, .like, 0, none⟩]) 1 2 true 5).1 = 500 ∧
    (routerDeleteReview (DB.mk [⟨1, "A", "c", true, 4, 1, 0, 0⟩]
        [⟨1, 1, 1, 4, "x", 0, 0, 0, 0⟩] [⟨1, 3, .like, 0, none⟩]) 1 2 true 5).2
      = DB.mk [⟨1, "A", "c", true, 4, 1, 0, 0⟩]
        [⟨1, 1, 1, 4, "x", 0, 0, 0, 0⟩] [⟨1, 3, .like, 0, none⟩] ∧
    Review.deleteById (DB.mk [⟨1, "A", "c", true, 4, 1, 0, 0⟩]
        [⟨1, 1, 1, 4, "x", 0, 0, 0, 0⟩] [⟨1, 3, .like, 0, none⟩]) 1 2 5
      = .error .reviewNotFoundOrNotOwner ∧
    (getUserReaction (routerDeleteReview (DB.mk [⟨1, "A", "c", true, 4, 1, 0, 0⟩]
        [⟨1, 1, 1, 4, "x", 0, 0, 0, 0⟩] [⟨1, 3, .like, 0, none⟩]) 1 2 true 5).2 1 3).isSome
      = true ∧
    (routerDeleteReview (DB.mk [⟨1, "A", "c", true, 4, 1, 0, 0⟩]
        [⟨1, 1, 1, 4, "x", 0, 0, 0, 0⟩] [⟨1, 3, .like, 0, none⟩]) 1 1 false 5).1 = 200 := by
  refine ⟨by decide, by decide, by decide, by decide, ?_⟩
  show (routerDeleteReview _ 1 1 false 5).1 = 200
  have hdel : Review.deleteById (DB.mk [⟨1, "A", "c", true, 4, 1, 0, 0⟩]
      [⟨1, 1, 1, 4, "x", 0, 0, 0, 0⟩] [⟨1, 3, .like, 0, none⟩]) 1 1 5
      = .ok (DB.mk [⟨1, "A", "c", true, 0, 0, 0, 5⟩] [] [], true) := by
    unfold Review.deleteById
    simp [updateRating, derivedRating, derivedCount, reviewsFor, updateFirst, List.eraseP]
  unfold routerDeleteReview
  rw [show (DB.mk [⟨1, "A", "c", true, 4, 1, 0, 0⟩] [⟨1, 1, 1, 4, "x", 0, 0, 0, 0⟩]
      [⟨1, 3, .like, 0, none⟩]).reviews.find? (fun rv => rv.revId == 1)
      = some ⟨1, 1, 1, 4, "x", 0, 0, 0, 0⟩ from by decide, hdel]
  rfl

/-- C8 counterexample: a review with `restaurantId = 1`, updated by its own
author with a payload carrying `restaurantId: 2`, comes back with
`restaurantId = 2` — the update does not leave the identity fields
untouched for every payload. -/
theorem C8_counterexample_mass_assignment :
    (Review.updateById (DB.mk [⟨1, "A", "c", true, 4, 1, 0, 0⟩]
        [⟨1, 1, 1, 4, "x", 0, 0, 0, 0⟩] []) 1
        { restaurantId? := some 2 } 1 5).toOption.map (fun x => x.2.restaurantId)
      = some 2 ∧
    (Review.updateById (DB.mk [⟨1, "A", "c", true, 4, 1, 0, 0⟩]
        [⟨1, 1, 1, 4, "x", 0, 0, 0, 0⟩] []) 1
        { userId? := some 7 } 1 5).toOption.map (fun x => x.2.userId)
      = some 7 ∧
    (2 : Nat) ≠ 1 ∧ (7 : Nat) ≠ 1 := by decide

/-- C8 amended: when the update payload carries no `userId` and no
`restaurantId` key — i.e. it patches only `rating` and/or `comment` — a
successful `Review.updateById` leaves every review's `userId` and
`restaurantId` unchanged, and the returned review is the first `_id` match
with exactly the patched fields plus the `updatedAt` stamp. (The code
`$set`s the whole payload, so a payload carrying `userId`/`restaurantId`
would alter them.) -/
theorem C8_update_preserves_ids (db : DB) (id : Nat) (patch : Patch) (u now : Nat)
    (h1 : patch.userId? = none) (h2 : patch.restaurantId? = none)
    (db' : DB) (rv : Review)
    (h : Review.updateById db id patch u now = .ok (db', rv)) :
    (∃ a, db.reviews.find? (fun x => x.revId == id) = some a ∧
      rv.userId = a.userId ∧ rv.restaurantId = a.restaurantId ∧
      rv.rating = patch.rating?.getD a.rating ∧
      rv.comment = patch.comment?.getD a.comment ∧ rv.updatedAt = now) ∧
    db'.reviews.map (fun x => (x.userId, x.restaurantId))
      = db.reviews.map (fun x => (x.userId, x.restaurantId)) := by
  rcases hown : db.reviews.find? (fun x => x.revId == id && x.userId == u) with _ | e
  · simp only [Review.updateById, hown] at h
    exact absurd h (by simp)
  · rcases hupd : (updateFirst (fun x => x.revId == id) (applySet patch now) db.reviews).find?
        (fun x => x.revId == id) with _ | w
    · simp only [Review.updateById, hown, hupd] at h
      exact absurd h (by simp)
    · simp only [Review.updateById, hown, hupd, Except.ok.injEq, Prod.mk.injEq] at h
      obtain ⟨hX, hw⟩ := h
      have hmap := find?_updateFirst (p := fun x => x.revId == id)
        (f := applySet patch now) (fun a ha => ha) db.reviews
      rw [hupd] at hmap
      rcases hfp : db.reviews.find? (fun x => x.revId == id) with _ | a
      · rw [hfp] at hmap
        exact absurd hmap (by simp)
      · rw [hfp] at hmap
        replace hmap : w = applySet patch now a := by simpa using hmap
        constructor
        · refine ⟨a, hfp, ?_, ?_, ?_, ?_, ?_⟩ <;>
            simp [← hw, hmap, applySet, h1, h2]
        · have hrev : db'.reviews
              = updateFirst (fun x => x.revId == id) (applySet patch now) db.reviews := by
            rw [← hX]
            cases htr : truthyNum patch.rating? <;> simp [htr, updateRating_reviews]
          rw [hrev]
          exact map_updateFirst _ (fun x => by simp [applySet, h1, h2]) _

/-- C8 witness: a comment-only patch by the author leaves the identity
columns of the ledger untouched. -/
theorem C8_update_preserves_ids_witness :
    Review.updateById (DB.mk [⟨1, "A", "c", true, 4, 1, 0, 0⟩]
        [⟨1, 1, 1, 4, "x", 0, 0, 0, 0⟩] []) 1 { comment? := some "w" } 1 5
      = .ok (DB.mk [⟨1, "A", "c", true, 4, 1, 0, 0⟩] [⟨1, 1, 1, 4, "w", 0, 0, 0, 5⟩] [],
             ⟨1, 1, 1, 4, "w", 0, 0, 0, 5⟩) ∧
    (DB.mk [⟨1, "A", "c", true, 4, 1, 0, 0⟩]
        [⟨1, 1, 1, 4, "w", 0, 0, 0, 5⟩] []).reviews.map (fun x => (x.userId, x.restaurantId))
      = (DB.mk [⟨1, "A", "c", true, 4, 1, 0, 0⟩]
        [⟨1, 1, 1, 4, "x", 0, 0, 0, 0⟩] []).reviews.map (fun x => (x.userId, x.restaurantId)) :=
  ⟨by decide,
   (C8_update_preserves_ids (DB.mk [⟨1, "A", "c", true, 4, 1, 0, 0⟩]
       [⟨1, 1, 1, 4, "x", 0, 0, 0, 0⟩] []) 1 { comment? := some "w" } 1 5 rfl rfl
       (DB.mk [⟨1, "A", "c", true, 4, 1, 0, 0⟩] [⟨1, 1, 1, 4, "w", 0, 0, 0, 5⟩] [])
       ⟨1, 1, 1, 4, "w", 0, 0, 0, 5⟩ (by decide)).2⟩

/-- The lexicographic ranking comparison, spelled out field by field. -/
theorem rankRel_iff (a b : Restaurant) :
    rankRel a b ↔
      (weightedScore b < weightedScore a ∨ (weightedScore b = weightedScore a ∧
        (b.reviewCount < a.reviewCount ∨
          (b.reviewCount = a.reviewCount ∧ b.rating ≤ a.rating)))) := by
  unfold rankRel rankKey
  rw [Prod.Lex.le_iff]
  simp only [Prod.Lex.le_iff, Nat.cast_lt, Nat.cast_inj]

/-- C4: the ranking output is the `limit`-prefix of a rearrangement of the
approved (and category-matching) candidates that is sorted descending by
`(weightedScore, reviewCount, rating)`, each later field only breaking ties
in the earlier one; on the spec's example, B (rating 4.8, 9 reviews, score
3.63) ranks above A (rating 5.0, 1 review, score 3.53). -/
theorem C4_ranking_order (db : DB) (category : Option String) (limit : Nat) :
    (∃ s : List Restaurant, s.Perm (rankCandidates db category) ∧
      s.Pairwise (fun a b => weightedScore b < weightedScore a ∨
        (weightedScore b = weightedScore a ∧ (b.reviewCount < a.reviewCount ∨
          (b.reviewCount = a.reviewCount ∧ b.rating ≤ a.rating)))) ∧
      getRanking db category limit = s.take limit) ∧
    weightedScore ⟨1, "A", "", true, 5, 1, 0, 0⟩ = 353 / 100 ∧
    weightedScore ⟨2, "B", "", true, 48 / 10, 9, 0, 0⟩ = 363 / 100 ∧
    getRanking (DB.mk [⟨1, "A", "", true, 5, 1, 0, 0⟩, ⟨2, "B", "", true, 48 / 10, 9, 0, 0⟩]
        [] []) none 10
      = [⟨2, "B", "", true, 48 / 10, 9, 0, 0⟩, ⟨1, "A", "", true, 5, 1, 0, 0⟩] := by
  refine ⟨⟨(rankCandidates db category).insertionSort rankRel,
      List.perm_insertionSort _ _, ?_, rfl⟩, ?_, ?_, ?_⟩
  · exact (List.sorted_insertionSort rankRel _).imp (fun h => (rankRel_iff _ _).1 h)
  · norm_num [weightedScore]
  · norm_num [weightedScore]
  · simp only [getRanking, rankCandidates, List.insertionSort, List.orderedInsert,
      List.filter]
    norm_num [rankRel, rankKey, weightedScore, Prod.Lex.le_iff]

/-- The `$inc` write applied to the review's cached counters. -/
@[reducible] def bumpCounters (l d : Int) (rv : Review) : Review :=
  { rv with likes := rv.likes + l, dislikes := rv.dislikes + d }

/-- The `$set` write that flips a stored reaction's type. -/
@[reducible] def setReactionType (t : ReactionType) (now : Nat) (rc : Reaction) : Reaction :=
  { rc with rtype := t, updatedAt := some now }

theorem find?_updateFirst_some {p : α → Bool} {f : α → α} {l : List α} {a : α}
    (hp : ∀ x, p x → p (f x)) (h : l.find? p = some a) :
    (updateFirst p f l).find? p = some (f a) := by
  rw [find?_updateFirst hp, h]
  rfl

theorem find?_updateFirst_bump (id : Nat) (l d : Int) {rl : List Review} {a : Review}
    (h : rl.find? (fun rv => rv.revId == id) = some a) :
    (updateFirst (fun rv => rv.revId == id) (bumpCounters l d) rl).find?
        (fun rv => rv.revId == id) = some (bumpCounters l d a) :=
  find?_updateFirst_some (fun x hx => hx) h

/-- `addReaction`, no-prior-reaction branch: insert the reaction and bump
the matching counter. -/
theorem addReaction_insert (db : DB) (id u : Nat) (t : ReactionType) (now : Nat)
    (review : Review)
    (hfind : db.reviews.find? (fun rv => rv.revId == id) = some review)
    (hb : (review.userId == u) = false)
    (hpre : db.reactions.find? (fun rc => rc.reviewId == id && rc.userId == u) = none) :
    Review.addReaction db id u t now =
      .ok ({ db with
             reviews := (updateFirst (fun rv => rv.revId == id)
               (bumpCounters (if t == .like then 1 else 0) (if t == .like then 0 else 1))
               db.reviews),
             reactions := (db.reactions ++ [⟨id, u, t, now, none⟩]) },
           bumpCounters (if t == .like then 1 else 0) (if t == .like then 0 else 1) review) := by
  simp only [Review.addReaction, hfind, hb, hpre, Bool.false_eq_true, if_false]
  rw [find?_updateFirst_bump id _ _ hfind]

/-- `addReaction`, same-type branch: delete the reaction and decrement that
counter (toggle-off). -/
theorem addReaction_toggle_off (db : DB) (id u : Nat) (t : ReactionType) (now : Nat)
    (review : Review) (rc : Reaction)
    (hfind : db.reviews.find? (fun rv => rv.revId == id) = some review)
    (hb : (review.userId == u) = false)
    (hpre : db.reactions.find? (fun rc => rc.reviewId == id && rc.userId == u) = some rc)
    (ht : rc.rtype = t) :
    Review.addReaction db id u t now =
      .ok ({ db with
             reviews := (updateFirst (fun rv => rv.revId == id)
               (bumpCounters (if t == .like then -1 else 0) (if t == .like then 0 else -1))
               db.reviews),
             reactions := (db.reactions.eraseP
               (fun rc => rc.reviewId == id && rc.userId == u)) },
           bumpCounters (if t == .like then -1 else 0) (if t == .like then 0 else -1)
             review) := by
  have ht' : (rc.rtype == t) = true := by simp [ht]
  simp only [Review.addReaction, hfind, hb, hpre, ht', Bool.false_eq_true, if_false, if_true]
  rw [find?_updateFirst_bump id _ _ hfind]

/-- `addReaction`, different-type branch: flip the stored reaction's type,
decrement the old counter and increment the new one. -/
theorem addReaction_flip (db : DB) (id u : Nat) (t : ReactionType) (now : Nat)
    (review : Review) (rc : Reaction)
    (hfind : db.reviews.find? (fun rv => rv.revId == id) = some review)
    (hb : (review.userId == u) = false)
    (hpre : db.reactions.find? (fun rc => rc.reviewId == id && rc.userId == u) = some rc)
    (ht : rc.rtype ≠ t) :
    Review.addReaction db id u t now =
      .ok ({ db with
             reviews := (updateFirst (fun rv => rv.revId == id)
               (bumpCounters (if t == .like then 1 else -1) (if t == .like then -1 else 1))
               db.reviews),
             reactions := (updateFirst (fun rc => rc.reviewId == id && rc.userId == u)
               (setReactionType t now) db.reactions) },
           bumpCounters (if t == .like then 1 else -1) (if t == .like then -1 else 1)
             review) := by
  have ht' : (rc.rtype == t) = false := by simpa using ht
  simp only [Review.addReaction, hfind, hb, hpre, ht', Bool.false_eq_true, if_false]
  rw [find?_updateFirst_bump id _ _ hfind]

/-- `n` consecutive like calls by user `u` on review `id`, each feeding the
database produced by the previous one (the `POST /reviews/:id/like` route
repeated `n` times). -/
def likeCalls (id u now : Nat) : Nat → DB → Except Err DB
  | 0, db => .ok db
  | n + 1, db =>
    match Review.addReaction db id u .like now with
    | .error e => .error e
    | .ok (db', _) => likeCalls id u now n db'

theorem bumpCounters_cancel (a : Review) :
    bumpCounters (-1) 0 (bumpCounters 1 0 a) = a := by
  cases a
  simp [bumpCounters]

/-- Two identical like calls restore the database exactly. -/
theorem likeCalls_plus_two (db : DB) (id u now : Nat) (review : Review)
    (hfind : db.reviews.find? (fun rv => rv.revId == id) = some review)
    (hb : (review.userId == u) = false)
    (hpre : db.reactions.find? (fun rc => rc.reviewId == id && rc.userId == u) = none)
    (n : Nat) :
    likeCalls id u now (n + 2) db = likeCalls id u now n db := by
  have h1 := addReaction_insert db id u .like now review hfind hb hpre
  simp only [beq_self_eq_true, if_true] at h1
  have hfind1 : (updateFirst (fun rv => rv.revId == id) (bumpCounters 1 0) db.reviews).find?
      (fun rv => rv.revId == id) = some (bumpCounters 1 0 review) :=
    find?_updateFirst_bump id 1 0 hfind
  have hpre1 : ((db.reactions ++ [(⟨id, u, .like, now, none⟩ : Reaction)]).find?
      (fun rc => rc.reviewId == id && rc.userId == u)) = some ⟨id, u, .like, now, none⟩ := by
    rw [List.find?_append, hpre]
    simp
  have h2 := addReaction_toggle_off
    (DB.mk db.restaurants
      (updateFirst (fun rv => rv.revId == id) (bumpCounters 1 0) db.reviews)
      (db.reactions ++ [⟨id, u, .like, now, none⟩]))
    id u .like now (bumpCounters 1 0 review) ⟨id, u, .like, now, none⟩ hfind1 hb hpre1 rfl
  simp only [beq_self_eq_true, if_true] at h2
  have hrev : updateFirst (fun rv => rv.revId == id) (bumpCounters (-1) 0)
      (updateFirst (fun rv => rv.revId == id) (bumpCounters 1 0) db.reviews) = db.reviews := by
    rw [updateFirst_updateFirst (p := fun rv => rv.revId == id)
      (g := bumpCounters 1 0) (fun a ha => ha)]
    rw [updateFirst_congr (fun a _ => bumpCounters_cancel a)]
    exact updateFirst_id _
  have hrc : (db.reactions ++ [(⟨id, u, .like, now, none⟩ : Reaction)]).eraseP
      (fun rc => rc.reviewId == id && rc.userId == u) = db.reactions := by
    rw [List.eraseP_append_right _ (by rw [List.find?_eq_none] at hpre; exact hpre)]
    simp
  rw [hrev, hrc] at h2
  have heta : DB.mk db.restaurants db.reviews db.reactions = db := rfl
  rw [heta] at h2
  simp only [likeCalls, h1, h2]

/-- C7 counterexample: on a review with `likes = 0` and no prior reaction,
three consecutive like calls by a non-author leave `likes` at 1 (the third
call re-adds the reaction), not at 0 as the claim's first half states. -/
theorem C7_counterexample_triple_like :
    (match likeCalls 1 2 5 3 (DB.mk [⟨1, "A", "c", true, 4, 1, 0, 0⟩]
        [⟨1, 1, 1, 4, "x", 0, 0, 0, 0⟩] []) with
      | .ok dbn => (dbn.reviews.find? (fun rv => rv.revId == 1)).map Review.likes
      | .error _ => none) = some 1 ∧ (1 : Int) ≠ 0 := by decide

/-- C7 amended: starting from no reaction by a non-author user on an
existing review whose `likes` counter is 0, after `n` identical like calls
the counter equals `n % 2` (so three calls leave it at 1, two calls at 0)
and the reaction is present exactly when `n` is odd — active after an odd
number of identical calls, inactive after an even number. -/
theorem C7_reaction_toggle_parity (db : DB) (id u now : Nat) (review : Review)
    (hfind : db.reviews.find? (fun rv => rv.revId == id) = some review)
    (hauthor : review.userId ≠ u)
    (hpre : getUserReaction db id u = none)
    (hlikes : review.likes = 0) :
    ∀ n, ∃ dbn, likeCalls id u now n db = .ok dbn ∧
      (dbn.reviews.find? (fun rv => rv.revId == id)).map Review.likes
        = some ((n % 2 : Nat) : Int) ∧
      (getUserReaction dbn id u).isSome = decide (n % 2 = 1) := by
  have hb : (review.userId == u) = false := by simpa using hauthor
  have hpre' : db.reactions.find? (fun rc => rc.reviewId == id && rc.userId == u) = none := hpre
  intro n
  induction n using Nat.twoStepInduction with
  | zero =>
    refine ⟨db, rfl, ?_, ?_⟩
    · rw [hfind]
      simp [hlikes]
    · rw [show getUserReaction db id u = none from hpre]
      simp
  | one =>
    have h1 := addReaction_insert db id u .like now review hfind hb hpre'
    simp only [beq_self_eq_true, if_true] at h1
    refine ⟨DB.mk db.restaurants
        (updateFirst (fun rv => rv.revId == id) (bumpCounters 1 0) db.reviews)
        (db.reactions ++ [⟨id, u, .like, now, none⟩]),
      by simp only [likeCalls, h1], ?_, ?_⟩
    · rw [show (DB.mk db.restaurants
          (updateFirst (fun rv => rv.revId == id) (bumpCounters 1 0) db.reviews)
          (db.reactions ++ [⟨id, u, .like, now, none⟩])).reviews
          = updateFirst (fun rv => rv.revId == id) (bumpCounters 1 0) db.reviews from rfl,
        find?_updateFirst_bump id 1 0 hfind]
      simp [bumpCounters, hlikes]
    · show ((db.reactions ++ [(⟨id, u, .like, now, none⟩ : Reaction)]).find?
        (fun rc => rc.reviewId == id && rc.userId == u)).isSome = _
      rw [List.find?_append, hpre']
      simp
  | more m hm _ =>
    obtain ⟨dbn, hrun, hcount, hsome⟩ := hm
    refine ⟨dbn, ?_, ?_, ?_⟩
    · rw [likeCalls_plus_two db id u now review hfind hb hpre' m]
      exact hrun
    · rw [Nat.add_mod_right]
      exact hcount
    · rw [Nat.add_mod_right]
      exact hsome

/-- C7 witness: three like calls by user 2 on review 1 (authored by user 1,
starting at zero likes with no reaction) leave the counter at `3 % 2 = 1`
with the reaction active. -/
theorem C7_reaction_toggle_parity_witness :
    ∃ dbn, likeCalls 1 2 5 3 (DB.mk [⟨1, "A", "c", true, 4, 1, 0, 0⟩]
        [⟨1, 1, 1, 4, "x", 0, 0, 0, 0⟩] []) = .ok dbn ∧
      (dbn.reviews.find? (fun rv => rv.revId == 1)).map Review.likes
        = some ((3 % 2 : Nat) : Int) ∧
      (getUserReaction dbn 1 2).isSome = decide (3 % 2 = 1) :=
  C7_reaction_toggle_parity (DB.mk [⟨1, "A", "c", true, 4, 1, 0, 0⟩]
      [⟨1, 1, 1, 4, "x", 0, 0, 0, 0⟩] []) 1 2 5 ⟨1, 1, 1, 4, "x", 0, 0, 0, 0⟩
      (by decide) (by decide) (by decide) (by decide) 3

/-- In a collection with a `Nodup` key column, two members with the same
key are the same element. -/
theorem eq_of_nodup_key {key : α → Nat} {l : List α} (hN : (l.map key).Nodup)
    {a b : α} (ha : a ∈ l) (hb : b ∈ l) (h : key a = key b) : a = b := by
  induction l with
  | nil => cases ha
  | cons x xs ih =>
    simp only [List.map_cons, List.nodup_cons] at hN
    rcases List.mem_cons.1 ha with rfl | ha'
    · rcases List.mem_cons.1 hb with rfl | hb'
      · rfl
      · exact absurd (h ▸ List.mem_map_of_mem key hb') hN.1
    · rcases List.mem_cons.1 hb with rfl | hb'
      · exact absurd (h ▸ List.mem_map_of_mem key ha') hN.1
      · exact ih hN.2 ha' hb'

theorem filter_length_append_middle (q : α → Bool) (l₁ l₂ : List α) (x : α) :
    ((l₁ ++ x :: l₂).filter q).length
      = ((l₁ ++ l₂).filter q).length + (if q x then 1 else 0) := by
  by_cases hq : q x <;>
    simp [List.filter_append, List.filter_cons, hq] <;> omega

theorem filter_length_append_one (q : α → Bool) (l : List α) (x : α) :
    ((l ++ [x]).filter q).length = (l.filter q).length + (if q x then 1 else 0) := by
  by_cases hq : q x <;> simp [List.filter_append, List.filter_cons, hq]

/-- Counter-consistency transfers across a counter bump on the unique
`_id` match when the reaction counts moved by exactly the same deltas. -/
theorem reactConsistent_bump (db db' : DB) (id : Nat) (review : Review) (l d : Int)
    (hfind : db.reviews.find? (fun rv => rv.revId == id) = some review)
    (hrevN : (db.reviews.map Review.revId).Nodup)
    (hrev' : db'.reviews
      = updateFirst (fun rv => rv.revId == id) (bumpCounters l d) db.reviews)
    (hcntL : (reactionCount db' id .like : Int) = reactionCount db id .like + l)
    (hcntD : (reactionCount db' id .dislike : Int) = reactionCount db id .dislike + d)
    (hcnt0 : ∀ w, w ≠ id → ∀ s, reactionCount db' w s = reactionCount db w s)
    (hcons : reactConsistent db) : reactConsistent db' := by
  have hrevkey : review.revId = id := by simpa using List.find?_some hfind
  intro x hx
  rw [hrev', updateFirst_eq_map_of_nodup Review.revId id _ hrevN] at hx
  obtain ⟨a, ha, hxa⟩ := List.mem_map.1 hx
  obtain ⟨hc1, hc2⟩ := hcons a ha
  by_cases hk : a.revId = id
  · rw [if_pos (by simpa using hk)] at hxa
    subst hxa
    rw [hk] at hc1 hc2
    constructor
    · show (bumpCounters l d a).likes = _
      rw [show (bumpCounters l d a).revId = a.revId from rfl, hk, bumpCounters]
      simp only
      omega
    · show (bumpCounters l d a).dislikes = _
      rw [show (bumpCounters l d a).revId = a.revId from rfl, hk, bumpCounters]
      simp only
      omega
  · rw [if_neg (by simpa using hk)] at hxa
    subst hxa
    exact ⟨by rw [hcnt0 a.revId hk .like]; exact hc1,
      by rw [hcnt0 a.revId hk .dislike]; exact hc2⟩

/-- C5: for an existing review and a non-author user, `addReaction` runs the
three-branch toggle — insert plus increment with no prior reaction, delete
plus decrement on a same-type repeat, type flip moving one count across on
a different type — returns the stored review with the updated counters, and
preserves agreement between the cached counters and the reaction set. -/
theorem C5_addReaction_toggle_correct (db : DB) (id u : Nat) (t : ReactionType) (now : Nat)
    (review : Review)
    (hfind : db.reviews.find? (fun rv => rv.revId == id) = some review)
    (hauthor : review.userId ≠ u)
    (hrevN : (db.reviews.map Review.revId).Nodup)
    (hpair : db.reactions.Pairwise
      (fun a b => ¬(a.reviewId = b.reviewId ∧ a.userId = b.userId))) :
    ∃ db' rv', Review.addReaction db id u t now = .ok (db', rv') ∧
      (getUserReaction db id u = none →
        db'.reactions = db.reactions ++ [⟨id, u, t, now, none⟩] ∧
        getUserReaction db' id u = some ⟨id, u, t, now, none⟩ ∧
        rv'.likes = review.likes + (if t = .like then 1 else 0) ∧
        rv'.dislikes = review.dislikes + (if t = .like then 0 else 1)) ∧
      (∀ rc, getUserReaction db id u = some rc → rc.rtype = t →
        getUserReaction db' id u = none ∧
        rv'.likes = review.likes - (if t = .like then 1 else 0) ∧
        rv'.dislikes = review.dislikes - (if t = .like then 0 else 1)) ∧
      (∀ rc, getUserReaction db id u = some rc → rc.rtype ≠ t →
        getUserReaction db' id u = some (setReactionType t now rc) ∧
        rv'.likes = review.likes + (if t = .like then 1 else -1) ∧
        rv'.dislikes = review.dislikes + (if t = .like then -1 else 1)) ∧
      db'.reviews.find? (fun rv => rv.revId == id) = some rv' ∧
      (reactConsistent db → reactConsistent db') := by
  have hb : (review.userId == u) = false := by simpa using hauthor
  have hrevmem : review ∈ db.reviews := List.mem_of_find?_eq_some hfind
  have hrevkey : review.revId = id := by simpa using List.find?_some hfind
  rcases hrc : db.reactions.find? (fun rc => rc.reviewId == id && rc.userId == u) with _ | rc
  · -- no prior reaction: insert branch
    have hcall := addReaction_insert db id u t now review hfind hb hrc
    refine ⟨_, _, hcall, ?_, ?_, ?_, ?_, ?_⟩
    · intro _
      refine ⟨rfl, ?_, ?_, ?_⟩
      · show ((db.reactions ++ [(⟨id, u, t, now, none⟩ : Reaction)]).find?
          (fun rc => rc.reviewId == id && rc.userId == u)) = _
        rw [List.find?_append, hrc]
        simp
      · cases t <;> simp [bumpCounters]
      · cases t <;> simp [bumpCounters]
    · intro rc' hsome _
      unfold getUserReaction at hsome
      rw [hrc] at hsome
      exact absurd hsome (by simp)
    · intro rc' hsome _
      unfold getUserReaction at hsome
      rw [hrc] at hsome
      exact absurd hsome (by simp)
    · exact find?_updateFirst_bump id _ _ hfind
    · intro hcons
      have hcnt : ∀ w s, reactionCount (DB.mk db.restaurants
          (updateFirst (fun rv => rv.revId == id)
            (bumpCounters (if t == .like then 1 else 0) (if t == .like then 0 else 1))
            db.reviews)
          (db.reactions ++ [⟨id, u, t, now, none⟩])) w s
          = reactionCount db w s + (if id = w ∧ t = s then 1 else 0) := by
        intro w s
        show ((db.reactions ++ [(⟨id, u, t, now, none⟩ : Reaction)]).filter
          (fun rc => rc.reviewId == w && rc.rtype == s)).length = _
        rw [filter_length_append_one]
        by_cases h1 : id = w <;> by_cases h2 : t = s <;>
          simp [reactionCount, h1, h2]
      intro x hx
      have hx' : x ∈ db.reviews.map (fun a => if a.revId == id then
          bumpCounters (if t == .like then 1 else 0) (if t == .like then 0 else 1) a
          else a) := by
        have hh := hx
        rw [show (DB.mk db.restaurants
            (updateFirst (fun rv => rv.revId == id)
              (bumpCounters (if t == .like then 1 else 0) (if t == .like then 0 else 1))
              db.reviews)
            (db.reactions ++ [⟨id, u, t, now, none⟩])).reviews
            = updateFirst (fun rv => rv.revId == id)
              (bumpCounters (if t == .like then 1 else 0) (if t == .like then 0 else 1))
              db.reviews from rfl,
          updateFirst_eq_map_of_nodup Review.revId id _ hrevN] at hh
        exact hh
      obtain ⟨a, ha, hxa⟩ := List.mem_map.1 hx'
      by_cases hk : a.revId = id
      · have haR : a = review := eq_of_nodup_key hrevN ha hrevmem (by rw [hk, hrevkey])
        subst haR
        rw [if_pos (by simpa using hk)] at hxa
        obtain ⟨hc1, hc2⟩ := hcons a ha
        constructor
        · rw [← hxa]
          show (bumpCounters _ _ a).likes = (reactionCount _ (bumpCounters _ _ a).revId .like : Int)
          rw [show (bumpCounters (if t == .like then 1 else 0)
              (if t == .like then 0 else 1) a).revId = a.revId from rfl, hk,
            hcnt id .like]
          rw [hk] at hc1
          cases t <;> simp [bumpCounters] <;> omega
        · rw [← hxa]
          show (bumpCounters _ _ a).dislikes
            = (reactionCount _ (bumpCounters _ _ a).revId .dislike : Int)
          rw [show (bumpCounters (if t == .like then 1 else 0)
              (if t == .like then 0 else 1) a).revId = a.revId from rfl, hk,
            hcnt id .dislike]
          rw [hk] at hc2
          cases t <;> simp [bumpCounters] <;> omega
      · rw [if_neg (by simpa using hk)] at hxa
        subst hxa
        obtain ⟨hc1, hc2⟩ := hcons a ha
        constructor
        · rw [hcnt a.revId .like, if_neg (fun hcon => hk hcon.1.symm)]
          simpa using hc1
        · rw [hcnt a.revId .dislike, if_neg (fun hcon => hk hcon.1.symm)]
          simpa using hc2
  · -- an earlier reaction by this user exists
    obtain ⟨l₁, l₂, hdecomp, hl₁, hprc⟩ := find?_decomp hrc
    have hid : rc.reviewId = id := (by simpa using hprc : rc.reviewId = id ∧ rc.userId = u).1
    have huid : rc.userId = u := (by simpa using hprc : rc.reviewId = id ∧ rc.userId = u).2
    have hl₂ : ∀ y ∈ l₂, ¬((y.reviewId == id && y.userId == u) = true) := by
      rw [hdecomp] at hpair
      have h3 := (List.pairwise_cons.1 (List.pairwise_append.1 hpair).2.1).1
      intro y hy hpy
      obtain ⟨hy1, hy2⟩ := (by simpa using hpy : y.reviewId = id ∧ y.userId = u)
      exact h3 y hy ⟨by rw [hid, hy1], by rw [huid, hy2]⟩
    by_cases htt : rc.rtype = t
    · -- same type: toggle-off
      have hcall := addReaction_toggle_off db id u t now review rc hfind hb hrc htt
      refine ⟨_, _, hcall, ?_, ?_, ?_, ?_, ?_⟩
      · intro hnone
        unfold getUserReaction at hnone
        rw [hrc] at hnone
        exact absurd hnone (by simp)
      · intro rc' hsome _
        refine ⟨?_, ?_, ?_⟩
        · show ((db.reactions.eraseP (fun rc => rc.reviewId == id && rc.userId == u)).find?
            (fun rc => rc.reviewId == id && rc.userId == u)) = none
          rw [hdecomp, List.eraseP_append_right _ hl₁, List.eraseP_cons_of_pos (p := fun rc : Reaction => rc.reviewId == id && rc.userId == u) hprc,
            List.find?_eq_none]
          intro y hy
          rcases List.mem_append.1 hy with h | h
          · exact hl₁ y h
          · exact hl₂ y h
        · cases t <;> simp [bumpCounters] <;> omega
        · cases t <;> simp [bumpCounters] <;> omega
      · intro rc' hsome hne
        unfold getUserReaction at hsome
        rw [hrc] at hsome
        injection hsome with h
        subst h
        exact absurd htt hne
      · exact find?_updateFirst_bump id _ _ hfind
      · intro hcons
        have herase : db.reactions.eraseP
            (fun rc => rc.reviewId == id && rc.userId == u) = l₁ ++ l₂ := by
          rw [hdecomp, List.eraseP_append_right _ hl₁, List.eraseP_cons_of_pos
            (p := fun rc : Reaction => rc.reviewId == id && rc.userId == u) hprc]
        refine reactConsistent_bump db _ id review _ _ hfind hrevN rfl ?_ ?_ ?_ hcons
        · show ((((db.reactions.eraseP (fun rc => rc.reviewId == id && rc.userId == u)).filter
              (fun rc => rc.reviewId == id && rc.rtype == .like)).length : Int)) = _
          rw [herase]
          rw [show reactionCount db id .like
              = ((l₁ ++ rc :: l₂).filter
                (fun rc => rc.reviewId == id && rc.rtype == .like)).length from by
            unfold reactionCount
            rw [hdecomp]]
          rw [filter_length_append_middle]
          cases t <;> simp [hid, htt] <;> omega
        · show ((((db.reactions.eraseP (fun rc => rc.reviewId == id && rc.userId == u)).filter
              (fun rc => rc.reviewId == id && rc.rtype == .dislike)).length : Int)) = _
          rw [herase]
          rw [show reactionCount db id .dislike
              = ((l₁ ++ rc :: l₂).filter
                (fun rc => rc.reviewId == id && rc.rtype == .dislike)).length from by
            unfold reactionCount
            rw [hdecomp]]
          rw [filter_length_append_middle]
          cases t <;> simp [hid, htt] <;> omega
        · intro w hw s
          show (((db.reactions.eraseP (fun rc => rc.reviewId == id && rc.userId == u)).filter
              (fun rc => rc.reviewId == w && rc.rtype == s)).length) = _
          rw [herase]
          rw [show reactionCount db w s
              = ((l₁ ++ rc :: l₂).filter
                (fun rc => rc.reviewId == w && rc.rtype == s)).length from by
            unfold reactionCount
            rw [hdecomp]]
          rw [filter_length_append_middle]
          have hfalse : ((rc.reviewId == w) && (rc.rtype == s)) = false := by
            have : (rc.reviewId == w) = false := by
              simp [hid]
              exact fun h => hw h.symm
            simp [this]
          simp [hfalse]
    · -- different type: flip
      have hcall := addReaction_flip db id u t now review rc hfind hb hrc htt
      refine ⟨_, _, hcall, ?_, ?_, ?_, ?_, ?_⟩
      · intro hnone
        unfold getUserReaction at hnone
        rw [hrc] at hnone
        exact absurd hnone (by simp)
      · intro rc' hsome htt'
        unfold getUserReaction at hsome
        rw [hrc] at hsome
        injection hsome with h
        subst h
        exact absurd htt' htt
      · intro rc' hsome _
        unfold getUserReaction at hsome
        rw [hrc] at hsome
        injection hsome with h
        subst h
        refine ⟨?_, ?_, ?_⟩
        · show ((updateFirst (fun rc => rc.reviewId == id && rc.userId == u)
            (setReactionType t now) db.reactions).find?
              (fun rc => rc.reviewId == id && rc.userId == u)) = _
          rw [hdecomp, updateFirst_append_of_forall_not hl₁,
            updateFirst_cons_pos (p := fun rc : Reaction => rc.reviewId == id && rc.userId == u) hprc, List.find?_append, List.find?_eq_none.2 hl₁]
          simp [setReactionType, hid, huid]
        · cases t <;> simp [bumpCounters]
        · cases t <;> simp [bumpCounters]
      · exact find?_updateFirst_bump id _ _ hfind
      · intro hcons
        have hflip : updateFirst (fun rc => rc.reviewId == id && rc.userId == u)
            (setReactionType t now) db.reactions
            = l₁ ++ setReactionType t now rc :: l₂ := by
          rw [hdecomp, updateFirst_append_of_forall_not hl₁, updateFirst_cons_pos
            (p := fun rc : Reaction => rc.reviewId == id && rc.userId == u) hprc]
        refine reactConsistent_bump db _ id review _ _ hfind hrevN rfl ?_ ?_ ?_ hcons
        · show ((((updateFirst (fun rc => rc.reviewId == id && rc.userId == u)
              (setReactionType t now) db.reactions).filter
              (fun rc => rc.reviewId == id && rc.rtype == .like)).length : Int)) = _
          rw [hflip]
          rw [show reactionCount db id .like
              = ((l₁ ++ rc :: l₂).filter
                (fun rc => rc.reviewId == id && rc.rtype == .like)).length from by
            unfold reactionCount
            rw [hdecomp]]
          rw [filter_length_append_middle, filter_length_append_middle]
          cases t <;> cases hrct : rc.rtype <;> rw [hrct] at htt <;>
            first
            | exact absurd rfl htt
            | simp [setReactionType, hid, hrct] <;> omega
        · show ((((updateFirst (fun rc => rc.reviewId == id && rc.userId == u)
              (setReactionType t now) db.reactions).filter
              (fun rc => rc.reviewId == id && rc.rtype == .dislike)).length : Int)) = _
          rw [hflip]
          rw [show reactionCount db id .dislike
              = ((l₁ ++ rc :: l₂).filter
                (fun rc => rc.reviewId == id && rc.rtype == .dislike)).length from by
            unfold reactionCount
            rw [hdecomp]]
          rw [filter_length_append_middle, filter_length_append_middle]
          cases t <;> cases hrct : rc.rtype <;> rw [hrct] at htt <;>
            first
            | exact absurd rfl htt
            | simp [setReactionType, hid, hrct] <;> omega
        · intro w hw s
          show (((updateFirst (fun rc => rc.reviewId == id && rc.userId == u)
              (setReactionType t now) db.reactions).filter
              (fun rc => rc.reviewId == w && rc.rtype == s)).length) = _
          rw [hflip]
          rw [show reactionCount db w s
              = ((l₁ ++ rc :: l₂).filter
                (fun rc => rc.reviewId == w && rc.rtype == s)).length from by
            unfold reactionCount
            rw [hdecomp]]
          rw [filter_length_append_middle, filter_length_append_middle]
          have hwid : (rc.reviewId == w) = false := by
            simp [hid]
            exact fun h => hw h.symm
          simp [setReactionType, hwid]

/-- C5 witness: the toggle contract instantiated for user 2 reacting with a
like to review 1 (authored by user 1) on a database with no reactions. -/
theorem C5_addReaction_toggle_correct_witness :
    ∃ db' rv', Review.addReaction (DB.mk [⟨1, "A", "c", true, 4, 1, 0, 0⟩]
        [⟨1, 1, 1, 4, "x", 0, 0, 0, 0⟩] []) 1 2 .like 5 = .ok (db', rv') ∧
      (getUserReaction (DB.mk [⟨1, "A", "c", true, 4, 1, 0, 0⟩]
          [⟨1, 1, 1, 4, "x", 0, 0, 0, 0⟩] []) 1 2 = none →
        db'.reactions = (DB.mk [⟨1, "A", "c", true, 4, 1, 0, 0⟩]
          [⟨1, 1, 1, 4, "x", 0, 0, 0, 0⟩] []).reactions ++ [⟨1, 2, .like, 5, none⟩] ∧
        getUserReaction db' 1 2 = some ⟨1, 2, .like, 5, none⟩ ∧
        rv'.likes = (⟨1, 1, 1, 4, "x", 0, 0, 0, 0⟩ : Review).likes
          + (if ReactionType.like = .like then 1 else 0) ∧
        rv'.dislikes = (⟨1, 1, 1, 4, "x", 0, 0, 0, 0⟩ : Review).dislikes
          + (if ReactionType.like = .like then 0 else 1)) ∧
      (∀ rc, getUserReaction (DB.mk [⟨1, "A", "c", true, 4, 1, 0, 0⟩]
          [⟨1, 1, 1, 4, "x", 0, 0, 0, 0⟩] []) 1 2 = some rc → rc.rtype = .like →
        getUserReaction db' 1 2 = none ∧
        rv'.likes = (⟨1, 1, 1, 4, "x", 0, 0, 0, 0⟩ : Review).likes
          - (if ReactionType.like = .like then 1 else 0) ∧
        rv'.dislikes = (⟨1, 1, 1, 4, "x", 0, 0, 0, 0⟩ : Review).dislikes
          - (if ReactionType.like = .like then 0 else 1)) ∧
      (∀ rc, getUserReaction (DB.mk [⟨1, "A", "c", true, 4, 1, 0, 0⟩]
          [⟨1, 1, 1, 4, "x", 0, 0, 0, 0⟩] []) 1 2 = some rc → rc.rtype ≠ .like →
        getUserReaction db' 1 2 = some (setReactionType .like 5 rc) ∧
        rv'.likes = (⟨1, 1, 1, 4, "x", 0, 0, 0, 0⟩ : Review).likes
          + (if ReactionType.like = .like then 1 else -1) ∧
        rv'.dislikes = (⟨1, 1, 1, 4, "x", 0, 0, 0, 0⟩ : Review).dislikes
          + (if ReactionType.like = .like then -1 else 1)) ∧
      db'.reviews.find? (fun rv => rv.revId == 1) = some rv' ∧
      (reactConsistent (DB.mk [⟨1, "A", "c", true, 4, 1, 0, 0⟩]
          [⟨1, 1, 1, 4, "x", 0, 0, 0, 0⟩] []) → reactConsistent db') :=
  C5_addReaction_toggle_correct (DB.mk [⟨1, "A", "c", true, 4, 1, 0, 0⟩]
      [⟨1, 1, 1, 4, "x", 0, 0, 0, 0⟩] []) 1 2 .like 5 ⟨1, 1, 1, 4, "x", 0, 0, 0, 0⟩
      (by decide) (by decide) (by decide) (by decide)

theorem derived_congr (dbA dbB : DB) (x : Nat)
    (h : reviewsFor dbA x = reviewsFor dbB x) :
    derivedCount dbA x = derivedCount dbB x ∧ derivedRating dbA x = derivedRating dbB x := by
  constructor
  · unfold derivedCount
    rw [h]
  · unfold derivedRating derivedCount
    rw [h]

theorem derived_congr_proj (dbA dbB : DB) (x : Nat)
    (h : (reviewsFor dbA x).map Review.rating = (reviewsFor dbB x).map Review.rating) :
    derivedCount dbA x = derivedCount dbB x ∧ derivedRating dbA x = derivedRating dbB x := by
  have hlen : derivedCount dbA x = derivedCount dbB x := by
    have hh := congrArg List.length h
    simpa [derivedCount] using hh
  refine ⟨hlen, ?_⟩
  unfold derivedRating
  rw [hlen, h]

theorem filter_map_proj (g : α → α) (pred : α → Bool) (proj : α → β) (l : List α)
    (hpred : ∀ a ∈ l, pred (g a) = pred a)
    (hproj : ∀ a ∈ l, pred a = true → proj (g a) = proj a) :
    ((l.map g).filter pred).map proj = (l.filter pred).map proj := by
  induction l with
  | nil => rfl
  | cons x xs ih =>
    have hp := hpred x (by simp)
    by_cases hx : pred x
    · rw [List.map_cons, List.filter_cons_of_pos (by rw [hp, hx]),
        List.filter_cons_of_pos hx, List.map_cons, List.map_cons,
        hproj x (by simp) hx,
        ih (fun a ha => hpred a (by simp [ha])) (fun a ha => hproj a (by simp [ha]))]
    · rw [List.map_cons, List.filter_cons_of_neg (by rw [hp]; exact hx),
        List.filter_cons_of_neg hx,
        ih (fun a ha => hpred a (by simp [ha])) (fun a ha => hproj a (by simp [ha]))]

/-- After a recompute on `id`, every restaurant record is consistent,
provided the restaurants whose id differs from `id` already were. -/
theorem updateRating_consistent (db0 : DB) (id now : Nat)
    (hN : (db0.restaurants.map Restaurant.rid).Nodup)
    (hOthers : ∀ r ∈ db0.restaurants, r.rid ≠ id → aggConsistent db0 r) :
    dbConsistent (updateRating db0 id now).1 := by
  intro r hr
  show aggConsistent db0 r
  have hr' : r ∈ updateFirst (fun r => r.rid == id)
      (setAgg (derivedRating db0 id) (derivedCount db0 id) now) db0.restaurants := hr
  rw [updateFirst_eq_map_of_nodup Restaurant.rid id _ hN] at hr'
  obtain ⟨a, ha, hra⟩ := List.mem_map.1 hr'
  by_cases hk : a.rid = id
  · rw [if_pos (by simpa using hk)] at hra
    subst hra
    constructor
    · show (derivedCount db0 id) = derivedCount db0 (setAgg _ _ _ a).rid
      rw [show (setAgg (derivedRating db0 id) (derivedCount db0 id) now a).rid
        = a.rid from rfl, hk]
    · show (derivedRating db0 id) = derivedRating db0 (setAgg _ _ _ a).rid
      rw [show (setAgg (derivedRating db0 id) (derivedCount db0 id) now a).rid
        = a.rid from rfl, hk]
  · rw [if_neg (by simpa using hk)] at hra
    subst hra
    exact hOthers a ha hk

/-- C1: starting from a database whose stored aggregates agree with the
Review Ledger (and whose restaurant and review ids are unique), every
successful Review Ledger mutation — review creation, review update with a
rating/comment payload, review deletion — leaves every restaurant's stored
`reviewCount` equal to the number of persisted reviews referencing it and
its stored `rating` equal to the rounded mean (0 with no reviews): no
stale aggregates after a mutation completes. -/
theorem C1_aggregates_never_stale (db : DB)
    (hRest : (db.restaurants.map Restaurant.rid).Nodup)
    (hRev : (db.reviews.map Review.revId).Nodup)
    (hCons : dbConsistent db) :
    (∀ d newId now db' rv, Review.create db d newId now = .ok (db', rv) →
      dbConsistent db') ∧
    (∀ id patch u now db' rv, patch.userId? = none → patch.restaurantId? = none →
      (∀ q, patch.rating? = some q → q ≠ 0) →
      Review.updateById db id patch u now = .ok (db', rv) → dbConsistent db') ∧
    (∀ id u now db' b, Review.deleteById db id u now = .ok (db', b) →
      dbConsistent db') := by
  refine ⟨?_, ?_, ?_⟩
  · intro d newId now db' rv h
    rcases hdup : db.reviews.find?
        (fun x => x.userId == d.userId && x.restaurantId == d.restaurantId) with _ | e0
    · rcases happr : db.restaurants.find?
          (fun r => r.rid == d.restaurantId && r.approved) with _ | r0
      · rcases hex : db.restaurants.find? (fun r => r.rid == d.restaurantId) with _ | r1 <;>
          simp only [Review.create, hdup, happr, hex] at h <;>
          exact absurd h (by simp)
      · simp only [Review.create, hdup, happr, Except.ok.injEq, Prod.mk.injEq] at h
        obtain ⟨hdb', _⟩ := h
        rw [← hdb']
        refine updateRating_consistent _ d.restaurantId now hRest ?_
        intro r hr hne
        obtain ⟨hc1, hc2⟩ := hCons r hr
        have hflt : reviewsFor (DB.mk db.restaurants
            (db.reviews ++ [reviewOfData d newId now]) db.reactions) r.rid
            = reviewsFor db r.rid := by
          show (db.reviews ++ [reviewOfData d newId now]).filter
            (fun x => x.restaurantId == r.rid) = _
          rw [List.filter_append]
          have hfalse : ((reviewOfData d newId now).restaurantId == r.rid) = false := by
            show (d.restaurantId == r.rid) = false
            simp
            exact fun hx => hne hx.symm
          simp [hfalse, reviewsFor]
        obtain ⟨hdc, hdr⟩ := derived_congr _ db r.rid hflt
        exact ⟨hc1.trans hdc.symm, hc2.trans hdr.symm⟩
    · simp only [Review.create, hdup] at h
      exact absurd h (by simp)
  · intro id patch u now db' rv h1 h2 hq h
    rcases hown : db.reviews.find? (fun x => x.revId == id && x.userId == u) with _ | e
    · simp only [Review.updateById, hown] at h
      exact absurd h (by simp)
    · rcases hupd : (updateFirst (fun x => x.revId == id) (applySet patch now)
          db.reviews).find? (fun x => x.revId == id) with _ | w
      · simp only [Review.updateById, hown, hupd] at h
        exact absurd h (by simp)
      · simp only [Review.updateById, hown, hupd, Except.ok.injEq, Prod.mk.injEq] at h
        obtain ⟨hdb', _⟩ := h
        have hemem : e ∈ db.reviews := List.mem_of_find?_eq_some hown
        have hekey : e.revId = id := by
          have hh := List.find?_some hown
          simp at hh
          exact hh.1
        cases htr : truthyNum patch.rating?
        · have hrnone : patch.rating? = none := by
            rcases hq0 : patch.rating? with _ | q
            · rfl
            · rw [hq0] at htr
              unfold truthyNum at htr
              simp at htr
              exact absurd htr (hq q hq0)
          rw [htr] at hdb'
          simp only [Bool.false_eq_true, if_false] at hdb'
          rw [← hdb']
          intro r hr
          obtain ⟨hc1, hc2⟩ := hCons r hr
          have hproj : ((reviewsFor (DB.mk db.restaurants
              (updateFirst (fun x => x.revId == id) (applySet patch now) db.reviews)
              db.reactions) r.rid).map Review.rating)
              = (reviewsFor db r.rid).map Review.rating := by
            show (((updateFirst (fun x => x.revId == id) (applySet patch now)
                db.reviews).filter (fun x => x.restaurantId == r.rid)).map Review.rating)
              = _
            rw [updateFirst_eq_map_of_nodup Review.revId id _ hRev]
            refine filter_map_proj _ _ _ _ ?_ ?_
            · intro a _
              by_cases hk : a.revId == id <;> simp [hk, applySet, h2]
            · intro a _ _
              by_cases hk : a.revId == id <;> simp [hk, applySet, hrnone]
          obtain ⟨hdc, hdr⟩ := derived_congr_proj _ db r.rid hproj
          exact ⟨hc1.trans hdc.symm, hc2.trans hdr.symm⟩
        · rw [htr] at hdb'
          simp only [if_true] at hdb'
          rw [← hdb']
          refine updateRating_consistent _ e.restaurantId now hRest ?_
          intro r hr hne
          obtain ⟨hc1, hc2⟩ := hCons r hr
          have hproj : ((reviewsFor (DB.mk db.restaurants
              (updateFirst (fun x => x.revId == id) (applySet patch now) db.reviews)
              db.reactions) r.rid).map Review.rating)
              = (reviewsFor db r.rid).map Review.rating := by
            show (((updateFirst (fun x => x.revId == id) (applySet patch now)
                db.reviews).filter (fun x => x.restaurantId == r.rid)).map Review.rating)
              = _
            rw [updateFirst_eq_map_of_nodup Review.revId id _ hRev]
            refine filter_map_proj _ _ _ _ ?_ ?_
            · intro a _
              by_cases hk : a.revId == id <;> simp [hk, applySet, h2]
            · intro a ha hpa
              by_cases hk : a.revId == id
              · have hae : a = e := eq_of_nodup_key hRev ha hemem (by
                  have hk' : a.revId = id := by simpa using hk
                  rw [hk', hekey])
                exfalso
                apply hne
                have hpa' : a.restaurantId = r.rid := by simpa using hpa
                rw [← hae]
                exact hpa'.symm
              · simp [hk]
          obtain ⟨hdc, hdr⟩ := derived_congr_proj _ db r.rid hproj
          exact ⟨hc1.trans hdc.symm, hc2.trans hdr.symm⟩
  · intro id u now db' b h
    rcases hown : db.reviews.find? (fun x => x.revId == id && x.userId == u) with _ | rv0
    · simp only [Review.deleteById, hown] at h
      exact absurd h (by simp)
    · simp only [Review.deleteById, hown, Except.ok.injEq, Prod.mk.injEq] at h
      obtain ⟨hdb', _⟩ := h
      rw [← hdb']
      have hmem0 : rv0 ∈ db.reviews := List.mem_of_find?_eq_some hown
      have hkey0 : rv0.revId = id := by
        have hh := List.find?_some hown
        simp at hh
        exact hh.1
      rcases hfp : db.reviews.find? (fun x => x.revId == id) with _ | a₀
      · exfalso
        rw [List.find?_eq_none] at hfp
        exact hfp rv0 hmem0 (by simp [hkey0])
      · have ha₀ : a₀ = rv0 := eq_of_nodup_key hRev (List.mem_of_find?_eq_some hfp) hmem0 (by
          have hh : a₀.revId = id := by simpa using List.find?_some hfp
          rw [hh, hkey0])
        obtain ⟨m₁, m₂, hdec, hm₁, hpa₀⟩ := find?_decomp hfp
        refine updateRating_consistent _ rv0.restaurantId now hRest ?_
        intro r hr hne
        obtain ⟨hc1, hc2⟩ := hCons r hr
        have herase : db.reviews.eraseP (fun x => x.revId == id) = m₁ ++ m₂ := by
          rw [hdec, List.eraseP_append_right _ hm₁,
            List.eraseP_cons_of_pos (p := fun x : Review => x.revId == id) hpa₀]
        have hflt : reviewsFor (DB.mk db.restaurants
            (db.reviews.eraseP (fun x => x.revId == id))
            (db.reactions.filter (fun rc => !(rc.reviewId == id)))) r.rid
            = reviewsFor db r.rid := by
          show (db.reviews.eraseP (fun x => x.revId == id)).filter
            (fun x => x.restaurantId == r.rid) = _
          rw [herase]
          show _ = db.reviews.filter (fun x => x.restaurantId == r.rid)
          rw [hdec]
          have hfalse : (a₀.restaurantId == r.rid) = false := by
            rw [ha₀]
            simp
            exact fun hx => hne hx.symm
          simp [List.filter_append, List.filter_cons, hfalse]
        obtain ⟨hdc, hdr⟩ := derived_congr _ db r.rid hflt
        exact ⟨hc1.trans hdc.symm, hc2.trans hdr.symm⟩

/-- C1 witness: creating the first review (rating 3) against a consistent
one-restaurant database yields a database that is still consistent — the
restaurant now stores `rating = 3`, `reviewCount = 1`. -/
theorem C1_aggregates_never_stale_witness :
    dbConsistent (DB.mk [⟨1, "A", "c", true, 3, 1, 0, 9⟩]
      [⟨9, 1, 1, 3, "z", 0, 0, 9, 9⟩] []) := by
  have hcreate : Review.create (DB.mk [⟨1, "A", "c", true, 0, 0, 0, 0⟩] [] [])
      ⟨1, 1, 3, "z", none, none⟩ 9 9
      = .ok (DB.mk [⟨1, "A", "c", true, 3, 1, 0, 9⟩] [⟨9, 1, 1, 3, "z", 0, 0, 9, 9⟩] [],
             ⟨9, 1, 1, 3, "z", 0, 0, 9, 9⟩) := by
    simp [Review.create, reviewOfData, updateRating, updateFirst, jsRound]
    norm_num [Rat.floor_def']
  exact (C1_aggregates_never_stale (DB.mk [⟨1, "A", "c", true, 0, 0, 0, 0⟩] [] [])
      (by decide) (by decide) (by decide)).1 ⟨1, 1, 3, "z", none, none⟩ 9 9 _ _ hcreate

end FoodieRank
